import Mathlib

/-
  Verification of the Topify-Volume-Estimator repository.

  Shallow embedding of:
  - src/model.py        (ChatGPTVolumeEstimator: feature extraction, min-max
                         scaling, logit combination, softmax domain shares)
  - src/util/hf_client.py  (bag-of-words text relevance scorer)
  - src/util/dfs_client.py (retry/backoff loop of DataForSEOClient._post)

  Python floating point arithmetic is modelled by real numbers.
-/

set_option maxRecDepth 4000

/- ===================== src/util/hf_client.py ===================== -/

/-- Stopword list of hf_client.py (module-level STOPWORDS set). -/
def STOPWORDS : List String :=
  ["the", "a", "an", "and", "or", "but", "if", "while", "for", "to", "of",
   "in", "on", "at", "by", "with", "as", "is", "are", "was", "were", "be",
   "been", "being", "it", "this", "that"]

/-- Python whitespace characters removed by str.strip(). -/
def isSpaceChar (c : Char) : Bool :=
  c = ' ' || c = '\t' || c = '\n' || c = '\r' || c = '\x0b' || c = '\x0c'

/-- clean_text (hf_client.py lines 10-14): str(text).strip().  In this typed
embedding the NaN branch cannot arise (texts are strings), so only the strip
remains. -/
def clean_text (s : String) : String :=
  String.mk (((s.toList.dropWhile isSpaceChar).reverse.dropWhile isSpaceChar).reverse)

/-- A character matched by the regex class [a-z0-9] after lowercasing. -/
def isTokenChar (c : Char) : Bool :=
  ('a' ≤ c && c ≤ 'z') || ('0' ≤ c && c ≤ '9')

/-- Maximal runs of [a-z0-9] characters, i.e. re.findall(r"[a-z0-9]+", text).
The accumulator holds the current run, reversed. -/
def splitRuns : List Char → List Char → List (List Char)
  | [], acc => if acc.isEmpty then [] else [acc.reverse]
  | c :: cs, acc =>
    if isTokenChar c then splitRuns cs (c :: acc)
    else if acc.isEmpty then splitRuns cs acc
    else acc.reverse :: splitRuns cs []

/-- tokenize (hf_client.py lines 16-19): lowercase, extract [a-z0-9]+ runs,
drop stopwords. -/
def tokenize (text : String) : List String :=
  ((splitRuns (text.toList.map Char.toLower) []).map (fun cs => String.mk cs)).filter
    (fun t => !(STOPWORDS.contains t))

/-- One step of the vocabulary dict build: vocab[t] = len(vocab) when absent
(the vocabulary is the list of tokens in insertion order, index = id). -/
def addToken (vocab : List String) (t : String) : List String :=
  if vocab.contains t then vocab else vocab ++ [t]

/-- Inner loop of the vocabulary build (hf_client.py lines 29-34): add each
token, stopping once the 2000-entry cap is reached. -/
def buildVocabInner (vocab : List String) : List String → List String
  | [] => vocab
  | t :: ts =>
    let v := addToken vocab t
    if 2000 ≤ v.length then v else buildVocabInner v ts

/-- Outer loop of the vocabulary build (hf_client.py lines 28-36). -/
def buildVocab (vocab : List String) : List (List String) → List String
  | [] => vocab
  | ts :: rest =>
    let v := buildVocabInner vocab ts
    if 2000 ≤ v.length then v else buildVocab v rest

/-- Raw bag-of-words counts of one tokenized text against the vocabulary:
entry idx of the vector is the number of tokens equal to vocab[idx]
(hf_client.py lines 41-45). -/
def rawVec (vocab tokens : List String) : List ℕ :=
  vocab.map (fun v => tokens.count v)

/-- Euclidean norm of a vector, math.sqrt(float((vec ** 2).sum())). -/
noncomputable def l2norm (v : List ℝ) : ℝ :=
  Real.sqrt ((v.map (fun x => x ^ 2)).sum)

/-- In-place normalization of one row (hf_client.py lines 47-49): divide by
the norm when it is positive. -/
noncomputable def normalizeVec (v : List ℝ) : List ℝ :=
  let n := l2norm v
  if 0 < n then v.map (fun x => x / n) else v

/-- get_embeddings (hf_client.py lines 21-50): clean, tokenize, build the
capped vocabulary, then emit one normalized count vector per text; an empty
vocabulary yields np.zeros((len(texts), 1)), one zero per text. -/
noncomputable def get_embeddings (texts : List String) : List (List ℝ) :=
  let tokenized := texts.map (fun t => tokenize (clean_text t))
  let vocab := buildVocab [] tokenized
  if vocab.isEmpty then texts.map (fun _ => [(0 : ℝ)])
  else tokenized.map (fun toks => normalizeVec ((rawVec vocab toks).map (fun n => (n : ℝ))))

/-- np.dot on two row vectors. -/
noncomputable def dotProduct (v w : List ℝ) : ℝ :=
  (List.zipWith (fun a b => a * b) v w).sum

/-- get_similarities (hf_client.py lines 61-74): embed [source] ++ queries,
then cosine of each query vector against the source vector, 0.0 when the
denominator vanishes. -/
noncomputable def get_similarities (source_sentence : String) (query_sentences : List String) :
    List ℝ :=
  let all_texts := source_sentence :: query_sentences
  let embeddings := get_embeddings all_texts
  let v0 := embeddings.headI
  let v0_norm := l2norm v0
  embeddings.tail.map (fun vi =>
    let d := v0_norm * l2norm vi
    if d ≠ 0 then dotProduct v0 vi / d else 0)

/- ===================== src/model.py ===================== -/

/-- One row of the SERP dataframe consumed by fit_transform.  A missing value
(None/NaN) in rank_absolute, title or description is modelled by none. -/
structure SerpRow where
  rank_absolute : Option ℝ
  domain : String
  title : Option String
  description : Option String
  is_featured_snippet : Bool
  in_people_also_ask : Bool

/-- The mutable state of a ChatGPTVolumeEstimator: self.lambdas, self.alpha,
self.similarity_func (model.py lines 33-35). -/
structure VolumeEstimator where
  lambdas : List ℝ
  alpha : ℝ
  similarity_func : String → List String → List ℝ

/-- ChatGPTVolumeEstimator.__init__ (model.py lines 21-36): stores the three
arguments without any validation, raising nothing (Except models the
possibility of a raise; the constructor never uses it). -/
noncomputable def estimatorInit (lambdas : List ℝ) (alpha : ℝ)
    (similarity_func : String → List String → List ℝ) : Except String VolumeEstimator :=
  Except.ok { lambdas := lambdas, alpha := alpha, similarity_func := similarity_func }

/-- set_lambdas (model.py lines 195-199): raise ValueError unless exactly 5
values, otherwise store the new weights. -/
def set_lambdas (lambdas : List ℝ) : Except String (List ℝ) :=
  if lambdas.length ≠ 5 then Except.error "Lambdas must be a list of 5 values"
  else Except.ok lambdas

/-- Embedding of _compute_visibility (model.py lines 38-43): 0.0 for a missing rank,
otherwise exp(-alpha * (max(1, rank) - 1)). -/
noncomputable def compute_visibility (alpha : ℝ) (rank : Option ℝ) : ℝ :=
  match rank with
  | none => 0
  | some rank => Real.exp (-alpha * (max 1 rank - 1))

/-- Embedding of _compute_feature_score (model.py lines 52-61): 0.6 for a featured
snippet, 0.4 for people-also-ask, clamped to 1.0. -/
noncomputable def compute_feature_score (row : SerpRow) : ℝ :=
  min 1 ((if row.is_featured_snippet then (0.6 : ℝ) else 0) +
         (if row.in_people_also_ask then (0.4 : ℝ) else 0))

/-- Embedding of _compute_logit (model.py lines 63-71): weighted sum of the scaled
features, with np.log(est_clicks + 1) on the clicks feature.  self.lambdas[i]
is read with default 0; the claims only exercise length-5 weight vectors,
where the default never fires (a shorter vector raises IndexError in
Python). -/
noncomputable def compute_logit (lambdas : List ℝ)
    (vis sem auth feat est_clicks : ℝ) : ℝ :=
  lambdas.getD 0 0 * vis + lambdas.getD 1 0 * sem + lambdas.getD 2 0 * auth +
    lambdas.getD 3 0 * feat + lambdas.getD 4 0 * Real.log (est_clicks + 1)

/-- np.max over a nonempty array (np.max raises on an empty one; 0 is a
junk value for the unreachable empty case). -/
def npMax : List ℝ → ℝ
  | [] => 0
  | x :: xs => xs.foldl max x

/-- DataFrame .min() over a nonempty column. -/
def npMin : List ℝ → ℝ
  | [] => 0
  | x :: xs => xs.foldl min x

/-- Embedding of _compute_domain_share (model.py lines 73-76): numerically stable softmax
with a 1e-12 epsilon added to the denominator. -/
noncomputable def compute_domain_share (logits : List ℝ) : List ℝ :=
  let exps := logits.map (fun l => Real.exp (l - npMax logits))
  exps.map (fun e => e / (exps.sum + 1e-12))

/-- One pass of the scaling loop body (model.py lines 122-127): min-max
rescale of one column, with denominator 1.0 when max - min == 0. -/
noncomputable def minmax_scale (xs : List ℝ) : List ℝ :=
  let col_min := npMin xs
  let col_max := npMax xs
  let denom := if col_max - col_min ≠ 0 then col_max - col_min else 1
  xs.map (fun x => (x - col_min) / denom)

/-- Pointwise combination of the five scaled columns by row, as the
row-wise df.apply of model.py lines 130-138. -/
noncomputable def zipWith5 (f : ℝ → ℝ → ℝ → ℝ → ℝ → ℝ) :
    List ℝ → List ℝ → List ℝ → List ℝ → List ℝ → List ℝ
  | a :: as, b :: bs, c :: cs, d :: ds, e :: es =>
      f a b c d e :: zipWith5 f as bs cs ds es
  | _, _, _, _, _ => []

/-- The dataframe produced by fit_transform: the copied rows (with title and
description filled) plus the raw, scaled, logit and domain-share columns. -/
structure FitResult where
  rows : List SerpRow
  vis : List ℝ
  sem : List ℝ
  auth : List ℝ
  feat : List ℝ
  est_clicks : List ℝ
  vis_scaled : List ℝ
  sem_scaled : List ℝ
  auth_scaled : List ℝ
  feat_scaled : List ℝ
  est_clicks_scaled : List ℝ
  logit : List ℝ
  domain_share : List ℝ

/-- fit_transform (model.py lines 78-143).  The empty-dataframe check raises
ValueError; the required-columns check cannot fire in this typed embedding
(every SerpRow carries all columns).  Note line 111: the sem column is the
FIRST element of the scorer's output, broadcast to every row
(self.similarity_func(keyword, texts)[0]); List.headI models the [0]
subscript (the batch is nonempty, so the scorer output is nonempty). -/
noncomputable def fit_transform (est : VolumeEstimator) (serp_df : List SerpRow) (keyword : String) :
    Except String FitResult :=
  if serp_df.isEmpty then Except.error "SERP DataFrame is empty or None" else
  let result_rows := serp_df.map (fun r =>
    { r with title := some (r.title.getD ""), description := some (r.description.getD "") })
  let vis := result_rows.map (fun r => compute_visibility est.alpha r.rank_absolute)
  let texts := result_rows.map (fun r => (r.title.getD "") ++ " " ++ (r.description.getD ""))
  let sem0 := (est.similarity_func keyword texts).headI
  let sem := result_rows.map (fun _ => sem0)
  let auth := result_rows.map (fun _ => (0 : ℝ))
  let feat := result_rows.map compute_feature_score
  let est_clicks := result_rows.map (fun _ => (0 : ℝ))
  let vis_scaled := minmax_scale vis
  let sem_scaled := minmax_scale sem
  let auth_scaled := minmax_scale auth
  let feat_scaled := minmax_scale feat
  let est_clicks_scaled := minmax_scale est_clicks
  let logit := zipWith5 (compute_logit est.lambdas) vis_scaled sem_scaled auth_scaled
    feat_scaled est_clicks_scaled
  Except.ok
    { rows := result_rows
      vis := vis
      sem := sem
      auth := auth
      feat := feat
      est_clicks := est_clicks
      vis_scaled := vis_scaled
      sem_scaled := sem_scaled
      auth_scaled := auth_scaled
      feat_scaled := feat_scaled
      est_clicks_scaled := est_clicks_scaled
      logit := logit
      domain_share := compute_domain_share logit }

/-- State-passing embedding of one call of estimator.fit_transform: the
method reads self but assigns only to the local copy result_df (model.py
line 101) and never to self or to serp_df, so the post-call state of the
estimator and of the input dataframe is the pre-call state. -/
noncomputable def fit_transform_run (est : VolumeEstimator) (serp_df : List SerpRow) (keyword : String) :
    Except String FitResult × VolumeEstimator × List SerpRow :=
  (fit_transform est serp_df keyword, est, serp_df)

/- ===================== src/util/dfs_client.py ===================== -/

/-- An HTTP response as seen by one attempt of _post: status and (decoded)
json body. -/
structure HttpResp where
  status : ℕ
  body : ℕ
deriving DecidableEq

/-- What one session.post attempt produces: a response, or a raised
transport-level exception (connection error / timeout). -/
inductive AttemptRes where
  | resp (r : HttpResp)
  | exn
deriving DecidableEq

/-- The statuses of line 26 of dfs_client.py: {429, 500, 502, 503, 504}. -/
def transientStatus (s : ℕ) : Bool :=
  s = 429 || s = 500 || s = 502 || s = 503 || s = 504

/-- How a call of _post terminates: returning the decoded json (line 25),
raising the fatal-status exception of line 30, re-raising a transport
exception at line 33, or falling off the for loop and returning None. -/
inductive PostResult where
  | json (body : ℕ)
  | raisedStatus (s : ℕ)
  | raisedTransport
  | noneReturned
deriving DecidableEq

/-- The attempt loop of _post (dfs_client.py lines 21-34).  The remaining
attempt indices are the first argument ([0, 1, 2] initially, so the index
equals Python's attempt variable); the second accumulates the asyncio.sleep
delays in order.  A non-success, non-transient status raises at line 30, but
that raise is caught by the except of line 31, which re-raises only at
attempt == 2 and otherwise sleeps 2 ** attempt and retries. -/
def postGo (responses : ℕ → AttemptRes) : List ℕ → List ℕ → PostResult × List ℕ
  | [], sleeps => (PostResult.noneReturned, sleeps)
  | a :: rest, sleeps =>
    match responses a with
    | AttemptRes.resp r =>
      if r.status = 200 then (PostResult.json r.body, sleeps)
      else if transientStatus r.status then postGo responses rest (sleeps ++ [2 ^ a])
      else if a = 2 then (PostResult.raisedStatus r.status, sleeps)
      else postGo responses rest (sleeps ++ [2 ^ a])
    | AttemptRes.exn =>
      if a = 2 then (PostResult.raisedTransport, sleeps)
      else postGo responses rest (sleeps ++ [2 ^ a])

/-- DataForSEOClient._post for one request, given the outcome of each of the
three attempts: for attempt in range(3). -/
def dfsPost (responses : ℕ → AttemptRes) : PostResult × List ℕ :=
  postGo responses [0, 1, 2] []

/- ===================== concrete inputs for the evaluations ===================== -/

/-- A SERP row whose title matches the query exactly. -/
def rowVideo : SerpRow :=
  { rank_absolute := some 1
    domain := "video.example"
    title := some "video"
    description := some ""
    is_featured_snippet := false
    in_people_also_ask := false }

/-- A SERP row whose title shares no token with the query. -/
def rowCat : SerpRow :=
  { rank_absolute := some 2
    domain := "cat.example"
    title := some "cat"
    description := some ""
    is_featured_snippet := false
    in_people_also_ask := false }

/-- An estimator with the default weights and alpha, using the repository's
own scorer. -/
noncomputable def estC2 : VolumeEstimator :=
  { lambdas := [1, 1, 1, 1, 1], alpha := 0.15, similarity_func := get_similarities }

/- ===================== order lemmas for npMax / npMin ===================== -/

theorem foldl_max_init_le (xs : List ℝ) : ∀ a : ℝ, a ≤ xs.foldl max a := by
  induction xs with
  | nil => intro a; exact le_refl a
  | cons x xs ih => intro a; exact le_trans (le_max_left a x) (ih (max a x))

theorem foldl_max_mem_le (xs : List ℝ) : ∀ (a x : ℝ), x ∈ xs → x ≤ xs.foldl max a := by
  induction xs with
  | nil => intro a x hx; cases hx
  | cons y ys ih =>
    intro a x hx
    rcases List.mem_cons.mp hx with h | h
    · subst h; exact le_trans (le_max_right a x) (foldl_max_init_le ys (max a x))
    · exact ih (max a y) x h

theorem foldl_max_choice (xs : List ℝ) :
    ∀ a : ℝ, xs.foldl max a = a ∨ xs.foldl max a ∈ xs := by
  induction xs with
  | nil => intro a; left; rfl
  | cons y ys ih =>
    intro a
    rcases ih (max a y) with h | h
    · rcases max_choice a y with h2 | h2
      · left; rw [List.foldl_cons, h, h2]
      · right; rw [List.foldl_cons, h, h2]; exact List.mem_cons_self y ys
    · right; exact List.mem_cons_of_mem y h

theorem le_npMax (xs : List ℝ) (x : ℝ) (hx : x ∈ xs) : x ≤ npMax xs := by
  cases xs with
  | nil => cases hx
  | cons y ys =>
    show x ≤ ys.foldl max y
    rcases List.mem_cons.mp hx with h | h
    · subst h; exact foldl_max_init_le ys x
    · exact foldl_max_mem_le ys y x h

theorem npMax_mem (xs : List ℝ) (h : xs ≠ []) : npMax xs ∈ xs := by
  cases xs with
  | nil => exact absurd rfl h
  | cons y ys =>
    show ys.foldl max y ∈ y :: ys
    rcases foldl_max_choice ys y with h2 | h2
    · rw [h2]; exact List.mem_cons_self y ys
    · exact List.mem_cons_of_mem y h2

theorem foldl_min_init_le (xs : List ℝ) : ∀ a : ℝ, xs.foldl min a ≤ a := by
  induction xs with
  | nil => intro a; exact le_refl a
  | cons x xs ih => intro a; exact le_trans (ih (min a x)) (min_le_left a x)

theorem foldl_min_mem_le (xs : List ℝ) : ∀ (a x : ℝ), x ∈ xs → xs.foldl min a ≤ x := by
  induction xs with
  | nil => intro a x hx; cases hx
  | cons y ys ih =>
    intro a x hx
    rcases List.mem_cons.mp hx with h | h
    · subst h; exact le_trans (foldl_min_init_le ys (min a x)) (min_le_right a x)
    · exact ih (min a y) x h

theorem foldl_min_choice (xs : List ℝ) :
    ∀ a : ℝ, xs.foldl min a = a ∨ xs.foldl min a ∈ xs := by
  induction xs with
  | nil => intro a; left; rfl
  | cons y ys ih =>
    intro a
    rcases ih (min a y) with h | h
    · rcases min_choice a y with h2 | h2
      · left; rw [List.foldl_cons, h, h2]
      · right; rw [List.foldl_cons, h, h2]; exact List.mem_cons_self y ys
    · right; exact List.mem_cons_of_mem y h

theorem npMin_le (xs : List ℝ) (x : ℝ) (hx : x ∈ xs) : npMin xs ≤ x := by
  cases xs with
  | nil => cases hx
  | cons y ys =>
    show ys.foldl min y ≤ x
    rcases List.mem_cons.mp hx with h | h
    · subst h; exact foldl_min_init_le ys x
    · exact foldl_min_mem_le ys y x h

theorem npMin_mem (xs : List ℝ) (h : xs ≠ []) : npMin xs ∈ xs := by
  cases xs with
  | nil => exact absurd rfl h
  | cons y ys =>
    show ys.foldl min y ∈ y :: ys
    rcases foldl_min_choice ys y with h2 | h2
    · rw [h2]; exact List.mem_cons_self y ys
    · exact List.mem_cons_of_mem y h2

/- ===================== softmax lemmas ===================== -/

theorem sum_map_div (l : List ℝ) (c : ℝ) : (l.map (fun x => x / c)).sum = l.sum / c := by
  induction l with
  | nil => simp
  | cons x xs ih => simp [ih, add_div]

theorem exps_nonneg (logits : List ℝ) :
    ∀ x ∈ logits.map (fun l => Real.exp (l - npMax logits)), 0 ≤ x := by
  intro x hx
  rcases List.mem_map.mp hx with ⟨l, _, rfl⟩
  exact (Real.exp_pos _).le

theorem one_le_exps_sum (logits : List ℝ) (h : logits ≠ []) :
    1 ≤ (logits.map (fun l => Real.exp (l - npMax logits))).sum := by
  have hmem := List.mem_map_of_mem (fun l => Real.exp (l - npMax logits)) (npMax_mem logits h)
  have hle := List.single_le_sum (exps_nonneg logits) _ hmem
  simp only [sub_self, Real.exp_zero] at hle
  exact hle

theorem shares_nonneg (logits : List ℝ) : ∀ s ∈ compute_domain_share logits, 0 ≤ s := by
  intro s hs
  simp only [compute_domain_share] at hs
  rcases List.mem_map.mp hs with ⟨e, he, rfl⟩
  have h0 : 0 ≤ e := exps_nonneg logits e he
  have hS : 0 ≤ (logits.map (fun l => Real.exp (l - npMax logits))).sum :=
    List.sum_nonneg (exps_nonneg logits)
  exact div_nonneg h0 (by linarith)

/-- C10: for a non-empty batch the softmax denominator sum of
exp(logit - max) is at least 1 (the maximal logit contributes exp(0) = 1),
hence nonzero even without the 1e-12 epsilon, and every computed share lies
in [0, 1). -/
theorem softmax_denominator_safe (logits : List ℝ) (h : logits ≠ []) :
    1 ≤ (logits.map (fun l => Real.exp (l - npMax logits))).sum ∧
    (logits.map (fun l => Real.exp (l - npMax logits))).sum ≠ 0 ∧
    ∀ s ∈ compute_domain_share logits, 0 ≤ s ∧ s < 1 := by
  have hS := one_le_exps_sum logits h
  refine ⟨hS, by linarith, ?_⟩
  intro s hs
  refine ⟨shares_nonneg logits s hs, ?_⟩
  simp only [compute_domain_share] at hs
  rcases List.mem_map.mp hs with ⟨e, he, rfl⟩
  have heS := List.single_le_sum (exps_nonneg logits) _ he
  have hD : 0 < (logits.map (fun l => Real.exp (l - npMax logits))).sum + 1e-12 := by linarith
  exact (div_lt_one hD).mpr (by linarith)

/-- Witness for C10 at the one-element batch of logit 0. -/
theorem softmax_denominator_safe_witness :
    ([(0 : ℝ)] ≠ []) ∧
    (1 ≤ ([(0 : ℝ)].map (fun l => Real.exp (l - npMax [(0 : ℝ)]))).sum ∧
     ([(0 : ℝ)].map (fun l => Real.exp (l - npMax [(0 : ℝ)]))).sum ≠ 0 ∧
     ∀ s ∈ compute_domain_share [(0 : ℝ)], 0 ≤ s ∧ s < 1) :=
  ⟨List.cons_ne_nil 0 [], softmax_denominator_safe [0] (List.cons_ne_nil 0 [])⟩

/-- C1: the Domain Share Normalizer computes
share_i = exp(logit_i - max) / (Σ exp(logit_j - max) + 1e-12), the shares are
non-negative, and they sum to 1 within 1e-9.  In this real-number model every
logit is finite and non-NaN, so the non-degeneracy condition of the claim is
just nonemptiness of the batch. -/
theorem domain_share_formula_sum_one (logits : List ℝ) (h : logits ≠ []) :
    compute_domain_share logits =
      logits.map (fun l => Real.exp (l - npMax logits) /
        ((logits.map (fun j => Real.exp (j - npMax logits))).sum + 1e-12)) ∧
    (∀ s ∈ compute_domain_share logits, 0 ≤ s) ∧
    |(compute_domain_share logits).sum - 1| ≤ 1e-9 := by
  refine ⟨by simp [compute_domain_share, List.map_map, Function.comp], shares_nonneg logits, ?_⟩
  have hS := one_le_exps_sum logits h
  set S := (logits.map (fun l => Real.exp (l - npMax logits))).sum with hSdef
  have hD : 0 < S + 1e-12 := by linarith
  have hsum : (compute_domain_share logits).sum = S / (S + 1e-12) := by
    simp only [compute_domain_share]
    rw [sum_map_div]
  rw [hsum, div_sub_one hD.ne']
  have habs : |(S - (S + 1e-12)) / (S + 1e-12)| = 1e-12 / (S + 1e-12) := by
    rw [abs_div, abs_of_pos hD]
    congr 1
    rw [abs_of_nonpos (by linarith)]
    ring
  rw [habs, div_le_iff₀ hD]
  linarith

/-- Witness for C1 at the one-element batch of logit 0. -/
theorem domain_share_formula_sum_one_witness :
    ([(0 : ℝ)] ≠ []) ∧
    (compute_domain_share [(0 : ℝ)] =
      [(0 : ℝ)].map (fun l => Real.exp (l - npMax [(0 : ℝ)]) /
        (([(0 : ℝ)].map (fun j => Real.exp (j - npMax [(0 : ℝ)]))).sum + 1e-12)) ∧
    (∀ s ∈ compute_domain_share [(0 : ℝ)], 0 ≤ s) ∧
    |(compute_domain_share [(0 : ℝ)]).sum - 1| ≤ 1e-9) :=
  ⟨List.cons_ne_nil 0 [], domain_share_formula_sum_one [0] (List.cons_ne_nil 0 [])⟩

/- ===================== scaler theorems ===================== -/

theorem minmax_scale_of_eq (xs : List ℝ) (heq : npMax xs - npMin xs = 0) :
    minmax_scale xs = xs.map (fun x => (x - npMin xs) / 1) := by
  simp only [minmax_scale, heq, ne_eq, not_true_eq_false, if_false]

theorem minmax_scale_of_ne (xs : List ℝ) (hne : npMax xs - npMin xs ≠ 0) :
    minmax_scale xs = xs.map (fun x => (x - npMin xs) / (npMax xs - npMin xs)) := by
  simp only [minmax_scale, ne_eq, hne, not_false_eq_true, if_true]

/-- C3: each feature column is rescaled by (x - min) / (max - min) over the
batch, with denominator 1.0 when max = min, in which case every scaled value
is 0; otherwise the scaled column has minimum 0 and maximum 1.
fit_transform applies minmax_scale to each of the five columns in turn
(model.py lines 122-127). -/
theorem minmax_scale_spec (xs : List ℝ) (h : xs ≠ []) :
    minmax_scale xs = xs.map (fun x => (x - npMin xs) /
      (if npMax xs - npMin xs ≠ 0 then npMax xs - npMin xs else 1)) ∧
    (npMax xs = npMin xs → ∀ y ∈ minmax_scale xs, y = 0) ∧
    (npMax xs ≠ npMin xs →
      npMin (minmax_scale xs) = 0 ∧ npMax (minmax_scale xs) = 1) := by
  refine ⟨rfl, ?_, ?_⟩
  · intro heq y hy
    have hsub : npMax xs - npMin xs = 0 := by rw [heq, sub_self]
    rw [minmax_scale_of_eq xs hsub] at hy
    rcases List.mem_map.mp hy with ⟨x, hx, rfl⟩
    have h1 : x ≤ npMax xs := le_npMax xs x hx
    have h2 : npMin xs ≤ x := npMin_le xs x hx
    have hxeq : x = npMin xs := le_antisymm (heq ▸ h1) h2
    rw [hxeq, sub_self, zero_div]
  · intro hne
    have hle : npMin xs ≤ npMax xs := npMin_le xs (npMax xs) (npMax_mem xs h)
    have hsub : npMax xs - npMin xs ≠ 0 := sub_ne_zero.mpr hne
    have hd : 0 < npMax xs - npMin xs :=
      lt_of_le_of_ne (sub_nonneg.mpr hle) (Ne.symm hsub)
    rw [minmax_scale_of_ne xs hsub]
    have hLne : xs.map (fun x => (x - npMin xs) / (npMax xs - npMin xs)) ≠ [] := by
      simpa using h
    have hmem0 : (0 : ℝ) ∈ xs.map (fun x => (x - npMin xs) / (npMax xs - npMin xs)) := by
      have := List.mem_map_of_mem (fun x => (x - npMin xs) / (npMax xs - npMin xs))
        (npMin_mem xs h)
      simpa [sub_self] using this
    have hmem1 : (1 : ℝ) ∈ xs.map (fun x => (x - npMin xs) / (npMax xs - npMin xs)) := by
      have := List.mem_map_of_mem (fun x => (x - npMin xs) / (npMax xs - npMin xs))
        (npMax_mem xs h)
      simpa [div_self hsub] using this
    constructor
    · refine le_antisymm (npMin_le _ 0 hmem0) ?_
      rcases List.mem_map.mp (npMin_mem _ hLne) with ⟨x, hx, hfx⟩
      rw [← hfx]
      exact div_nonneg (sub_nonneg.mpr (npMin_le xs x hx)) hd.le
    · refine le_antisymm ?_ (le_npMax _ 1 hmem1)
      rcases List.mem_map.mp (npMax_mem _ hLne) with ⟨x, hx, hfx⟩
      rw [← hfx]
      exact (div_le_one hd).mpr (by have := le_npMax xs x hx; linarith)

/-- Witness for C3 at the column [0, 2]. -/
theorem minmax_scale_spec_witness :
    ([(0 : ℝ), 2] ≠ []) ∧
    (minmax_scale [(0 : ℝ), 2] = [(0 : ℝ), 2].map (fun x => (x - npMin [(0 : ℝ), 2]) /
      (if npMax [(0 : ℝ), 2] - npMin [(0 : ℝ), 2] ≠ 0 then npMax [(0 : ℝ), 2] - npMin [(0 : ℝ), 2] else 1)) ∧
    (npMax [(0 : ℝ), 2] = npMin [(0 : ℝ), 2] → ∀ y ∈ minmax_scale [(0 : ℝ), 2], y = 0) ∧
    (npMax [(0 : ℝ), 2] ≠ npMin [(0 : ℝ), 2] →
      npMin (minmax_scale [(0 : ℝ), 2]) = 0 ∧ npMax (minmax_scale [(0 : ℝ), 2]) = 1)) :=
  ⟨List.cons_ne_nil 0 [2], minmax_scale_spec [0, 2] (List.cons_ne_nil 0 [2])⟩

/- ===================== visibility theorem ===================== -/

/-- C4: vis(rank) = exp(-alpha * (rank - 1)) for rank at least 1, vis of a
missing rank is 0, vis(1) = 1, vis is strictly decreasing in rank for
alpha > 0, and vis(rank) lies in (0, 1]. -/
theorem visibility_spec (alpha : ℝ) (halpha : 0 < alpha) :
    compute_visibility alpha none = 0 ∧
    (∀ r : ℝ, 1 ≤ r → compute_visibility alpha (some r) = Real.exp (-alpha * (r - 1))) ∧
    compute_visibility alpha (some 1) = 1 ∧
    (∀ r1 r2 : ℝ, 1 ≤ r1 → r1 < r2 →
      compute_visibility alpha (some r2) < compute_visibility alpha (some r1)) ∧
    (∀ r : ℝ, 1 ≤ r →
      0 < compute_visibility alpha (some r) ∧ compute_visibility alpha (some r) ≤ 1) := by
  have hform : ∀ r : ℝ, 1 ≤ r →
      compute_visibility alpha (some r) = Real.exp (-alpha * (r - 1)) := by
    intro r hr
    simp only [compute_visibility, max_eq_right hr]
  refine ⟨rfl, hform, ?_, ?_, ?_⟩
  · rw [hform 1 le_rfl, sub_self, mul_zero, Real.exp_zero]
  · intro r1 r2 h1 h2
    rw [hform r1 h1, hform r2 (by linarith)]
    apply Real.exp_lt_exp.mpr
    nlinarith [mul_pos halpha (sub_pos.mpr h2)]
  · intro r hr
    rw [hform r hr]
    refine ⟨Real.exp_pos _, Real.exp_le_one_iff.mpr ?_⟩
    nlinarith [mul_nonneg halpha.le (sub_nonneg.mpr hr)]

/-- Witness for C4 at alpha = 0.15. -/
theorem visibility_spec_witness :
    (0 < (0.15 : ℝ)) ∧
    (compute_visibility 0.15 none = 0 ∧
    (∀ r : ℝ, 1 ≤ r → compute_visibility 0.15 (some r) = Real.exp (-(0.15 : ℝ) * (r - 1))) ∧
    compute_visibility 0.15 (some 1) = 1 ∧
    (∀ r1 r2 : ℝ, 1 ≤ r1 → r1 < r2 →
      compute_visibility 0.15 (some r2) < compute_visibility 0.15 (some r1)) ∧
    (∀ r : ℝ, 1 ≤ r →
      0 < compute_visibility 0.15 (some r) ∧ compute_visibility 0.15 (some r) ≤ 1)) :=
  ⟨by norm_num, visibility_spec 0.15 (by norm_num)⟩

/- ===================== single-entry share theorems ===================== -/

theorem share_singleton_eval (l : ℝ) : compute_domain_share [l] = [1 / (1 + 1e-12)] := by
  simp only [compute_domain_share, npMax, List.foldl_nil, List.map_cons, List.map_nil,
    List.sum_cons, List.sum_nil, sub_self, Real.exp_zero, add_zero]

/-- C7 counterexample: for the single-entry batch of logit 0 the computed
share is 1 / (1 + 1e-12), which differs from 1.0 exactly. -/
theorem single_share_not_one : compute_domain_share [(0 : ℝ)] ≠ [1] := by
  intro hc
  rw [share_singleton_eval 0] at hc
  norm_num at hc

/-- C7 amended: for a single-entry batch the computed share equals
1 / (1 + 1e-12) regardless of weights and alpha — strictly below 1 but
within 1e-12 of it. -/
theorem single_share_value (l : ℝ) :
    compute_domain_share [l] = [1 / (1 + 1e-12)] ∧
    (1 : ℝ) / (1 + 1e-12) < 1 ∧ |(1 : ℝ) / (1 + 1e-12) - 1| ≤ 1e-12 := by
  refine ⟨share_singleton_eval l, by norm_num, ?_⟩
  rw [abs_of_nonpos (by norm_num)]
  norm_num

/- ===================== weight validation theorems ===================== -/

/-- C8 counterexample: the constructor accepts a 2-element weight vector
without raising any error. -/
theorem init_wrong_arity_accepted :
    ([(1 : ℝ), 2].length ≠ 5) ∧
    ¬ ∃ msg, estimatorInit [(1 : ℝ), 2] 0.15 get_similarities = Except.error msg := by
  refine ⟨by norm_num, ?_⟩
  rintro ⟨msg, hmsg⟩
  simp [estimatorInit] at hmsg

/-- C8 amended: set_lambdas raises the configuration error exactly when the
weight count is not 5 and performs no other validation (zero and negative
weights are accepted); the constructor stores any weight vector without
validation. -/
theorem weights_validation (ws : List ℝ) (alpha : ℝ)
    (simf : String → List String → List ℝ) :
    set_lambdas ws = (if ws.length = 5 then Except.ok ws
      else Except.error "Lambdas must be a list of 5 values") ∧
    estimatorInit ws alpha simf =
      Except.ok { lambdas := ws, alpha := alpha, similarity_func := simf } ∧
    set_lambdas [0, -1, 0, 0, 0] = Except.ok [0, -1, 0, 0, 0] := by
  refine ⟨?_, rfl, by simp [set_lambdas]⟩
  by_cases hlen : ws.length = 5
  · simp [set_lambdas, hlen]
  · simp [set_lambdas, hlen]

/- ===================== purity theorem ===================== -/

/-- C9: the pipeline is a pure deterministic function: one call leaves the
estimator state and the input batch unchanged, and a second run on the same
state and batch returns the same result (so in particular the same logit
and domain_share columns). -/
theorem fit_transform_pure (est : VolumeEstimator) (df : List SerpRow) (kw : String) :
    (fit_transform_run est df kw).2.1 = est ∧
    (fit_transform_run est df kw).2.2 = df ∧
    (fit_transform_run ((fit_transform_run est df kw).2.1)
        ((fit_transform_run est df kw).2.2) kw).1 = (fit_transform_run est df kw).1 :=
  ⟨rfl, rfl, rfl⟩

/- ===================== acquisition retry theorems ===================== -/

/-- C5: a response with a fatal status (404) on every attempt is NOT raised
immediately: the raise of dfs_client.py line 30 is caught by its own except
clause (line 31) and retried with backoff delays 1 and 2, the error
surfacing only on the third attempt. -/
theorem fatal_status_retried :
    dfsPost (fun _ => AttemptRes.resp { status := 404, body := 0 }) =
      (PostResult.raisedStatus 404, [1, 2]) := by decide

/-- C6: a request transient (429) twice then successful yields the decoded
json with exactly the backoff delays 1 and 2; but a request transient on
all 3 attempts sleeps 1, 2, 4 and then falls off the loop, returning None
rather than surfacing a transient-source error. -/
theorem transient_retry_spec :
    dfsPost (fun a => if a = 2 then AttemptRes.resp { status := 200, body := 7 }
      else AttemptRes.resp { status := 429, body := 0 }) = (PostResult.json 7, [1, 2]) ∧
    dfsPost (fun _ => AttemptRes.resp { status := 429, body := 0 }) =
      (PostResult.noneReturned, [1, 2, 4]) :=
  ⟨by decide, by decide⟩

/- ===================== semantic column theorems ===================== -/

theorem l2norm10 : l2norm [(1 : ℝ), 0] = 1 := by
  simp [l2norm]

theorem l2norm01 : l2norm [(0 : ℝ), 1] = 1 := by
  simp [l2norm]

theorem norm10 : normalizeVec [(1 : ℝ), 0] = [1, 0] := by
  simp [normalizeVec, l2norm10]

theorem norm01 : normalizeVec [(0 : ℝ), 1] = [0, 1] := by
  simp [normalizeVec, l2norm01]

theorem embC2 : get_embeddings ["video", "video ", "cat "] = [[1, 0], [1, 0], [0, 1]] := by
  have h1 : ["video", "video ", "cat "].map (fun t => tokenize (clean_text t)) =
      [["video"], ["video"], ["cat"]] := by decide
  have h2 : buildVocab [] [["video"], ["video"], ["cat"]] = ["video", "cat"] := by decide
  have h3 : rawVec ["video", "cat"] ["video"] = [1, 0] := by decide
  have h4 : rawVec ["video", "cat"] ["cat"] = [0, 1] := by decide
  simp only [get_embeddings, h1, h2]
  norm_num [h3, h4, norm10, norm01]

theorem simC2 : get_similarities "video" ["video ", "cat "] = [1, 0] := by
  simp only [get_similarities, embC2]
  simp [List.headI, l2norm10, l2norm01, dotProduct]

theorem get_embeddings_length (texts : List String) :
    (get_embeddings texts).length = texts.length := by
  simp only [get_embeddings]
  by_cases h : (buildVocab [] (texts.map fun t => tokenize (clean_text t))).isEmpty
  · simp [h]
  · simp [h]

theorem get_similarities_length (q : String) (cs : List String) :
    (get_similarities q cs).length = cs.length := by
  simp only [get_similarities, List.length_map, List.length_tail, get_embeddings_length]
  simp

/-- C2: the scorer is length-preserving and called once per batch, but the
engine's sem column is NOT the per-entry score: model.py line 111 subscripts
the scorer's output with [0], broadcasting the FIRST entry's similarity to
every row.  At the concrete batch [rowVideo, rowCat] with query "video" the
scorer returns [1, 0] (one distinct score per entry), yet both entries get
sem = 1 — the second entry's sem differs from its own score 0. -/
theorem sem_uses_first_score_only :
    (∀ (q : String) (cs : List String), (get_similarities q cs).length = cs.length) ∧
    get_similarities "video" ["video ", "cat "] = [1, 0] ∧
    Except.map FitResult.sem (fit_transform estC2 [rowVideo, rowCat] "video") =
      Except.ok [1, 1] := by
  refine ⟨get_similarities_length, simC2, ?_⟩
  have ht1 : ("video" ++ " " ++ "" : String) = "video " := rfl
  have ht2 : ("cat" ++ " " ++ "" : String) = "cat " := rfl
  simp only [fit_transform, estC2, rowVideo, rowCat]
  norm_num [ht1, ht2, simC2, List.headI, Except.map]
